import Mathlib

/-!
Shallow embedding of the btrfs send-stream decoder from
`src/btrfs-snapshots-diff.py` (class `BtrfsStreamParser` and its helpers).

Conventions of the embedding:

* A byte buffer is a `List Nat`, one entry per byte.
* `struct.unpack(fmt, stream[a:b])` succeeds exactly when the slice has
  exactly the byte size `fmt` requires; every such failure
  (`struct.error`) is modelled as `DecodeError.bufferOverrun`.
* String attributes are kept as their raw byte lists: UTF-8 decoding is
  injective on valid byte sequences and no claim below depends on the
  decoded text itself.
* Python floats for timestamps are modelled exactly as the pair
  (seconds, nanoseconds); the literal `0.0` corresponds to `⟨0, 0⟩`.
* The two `ValueError`s raised for an unrecognized command code
  (from `SendCmd(cmd)` on a code outside the enum — the
  `except IndexError` in the source is dead code since the enum raises
  `ValueError` — and from the final `else` of the dispatch chain for
  enum codes the chain does not handle) are both modelled as
  `DecodeError.unknownCommand`.
* The `ValueError`s raised inside the `_tlv_get*` helpers (the explicit
  "Unexpected attribute" raise as well as the `ValueError` from
  constructing `SendAttr` on an invalid attribute code) are modelled as
  `DecodeError.unexpectedAttribute`.
* The short-length and bad-magic failures of `__init__` (which leave
  `version = None` so that `main` aborts, resp. die in `unpack`; either
  way no decode ever runs) are modelled as `DecodeError.invalidStream`.
* The generator loop of `parse` advances its offset by at least 10 bytes
  per iteration, so `stream.length + 1` units of fuel can never run out
  before the loop stops by itself; the fuel-out branch returns the same
  `bufferOverrun` that the command-header read at an exhausted offset
  would produce.
-/

/-- Little-endian value of the `n` bytes of `s` starting at `pos`, i.e.
`struct.unpack` of an unsigned little-endian field of width `n`. -/
def leVal (s : List Nat) (pos n : Nat) : Nat :=
  (List.range n).foldr (fun i acc => acc * 256 + s.getD (pos + i) 0) 0

/-- The `SendCmd` enum of the source: index `i` holds the name of the
command with wire code `i` (codes 0–26). -/
def sendCmdNames : List String :=
  ["BTRFS_SEND_C_UNSPEC",
   "BTRFS_SEND_C_SUBVOL",
   "BTRFS_SEND_C_SNAPSHOT",
   "BTRFS_SEND_C_MKFILE",
   "BTRFS_SEND_C_MKDIR",
   "BTRFS_SEND_C_MKNOD",
   "BTRFS_SEND_C_MKFIFO",
   "BTRFS_SEND_C_MKSOCK",
   "BTRFS_SEND_C_SYMLINK",
   "BTRFS_SEND_C_RENAME",
   "BTRFS_SEND_C_LINK",
   "BTRFS_SEND_C_UNLINK",
   "BTRFS_SEND_C_RMDIR",
   "BTRFS_SEND_C_SET_XATTR",
   "BTRFS_SEND_C_REMOVE_XATTR",
   "BTRFS_SEND_C_WRITE",
   "BTRFS_SEND_C_CLONE",
   "BTRFS_SEND_C_TRUNCATE",
   "BTRFS_SEND_C_CHMOD",
   "BTRFS_SEND_C_CHOWN",
   "BTRFS_SEND_C_UTIMES",
   "BTRFS_SEND_C_END",
   "BTRFS_SEND_C_UPDATE_EXTENT",
   "BTRFS_SEND_C_FALLOCATE",
   "BTRFS_SEND_C_FILEATTR",
   "BTRFS_SEND_C_ENCODED_WRITE",
   "BTRFS_SEND_C_ENABLE_VERITY"]

/-- The `SendAttr` enum of the source: index `i` holds the name of the
attribute with wire code `i` (codes 0–35). -/
def sendAttrNames : List String :=
  ["BTRFS_SEND_A_UNSPEC",
   "BTRFS_SEND_A_UUID",
   "BTRFS_SEND_A_CTRANSID",
   "BTRFS_SEND_A_INO",
   "BTRFS_SEND_A_SIZE",
   "BTRFS_SEND_A_MODE",
   "BTRFS_SEND_A_UID",
   "BTRFS_SEND_A_GID",
   "BTRFS_SEND_A_RDEV",
   "BTRFS_SEND_A_CTIME",
   "BTRFS_SEND_A_MTIME",
   "BTRFS_SEND_A_ATIME",
   "BTRFS_SEND_A_OTIME",
   "BTRFS_SEND_A_XATTR_NAME",
   "BTRFS_SEND_A_XATTR_DATA",
   "BTRFS_SEND_A_PATH",
   "BTRFS_SEND_A_PATH_TO",
   "BTRFS_SEND_A_PATH_LINK",
   "BTRFS_SEND_A_FILE_OFFSET",
   "BTRFS_SEND_A_DATA",
   "BTRFS_SEND_A_CLONE_UUID",
   "BTRFS_SEND_A_CLONE_CTRANSID",
   "BTRFS_SEND_A_CLONE_PATH",
   "BTRFS_SEND_A_CLONE_OFFSET",
   "BTRFS_SEND_A_CLONE_LEN",
   "BTRFS_SEND_A_FALLOCATE_MODE",
   "BTRFS_SEND_A_FILEATTR",
   "BTRFS_SEND_A_UNENCODED_FILE_LEN",
   "BTRFS_SEND_A_UNENCODED_LEN",
   "BTRFS_SEND_A_UNENCODED_OFFSET",
   "BTRFS_SEND_A_COMPRESSION",
   "BTRFS_SEND_A_ENCRYPTION",
   "BTRFS_SEND_A_VERITY_ALGORITHM",
   "BTRFS_SEND_A_VERITY_BLOCK_SIZE",
   "BTRFS_SEND_A_VERITY_SALT_DATA",
   "BTRFS_SEND_A_VERITY_SIG_DATA"]

/-- The fixed 12-byte magic literal "btrfs-stream". -/
def streamMagic : List Nat :=
  [98, 116, 114, 102, 115, 45, 115, 116, 114, 101, 97, 109]

/-- The error taxonomy of the decoder (section 7 of the specification),
one constructor per distinct failure signal of the source. -/
inductive DecodeError where
  | invalidStream : DecodeError
  | unexpectedAttribute (actual : Nat) (expected : String) : DecodeError
  | unknownCommand (code : Nat) : DecodeError
  | bufferOverrun : DecodeError
deriving Repr, DecidableEq

/-- A decoded timestamp: 8-byte little-endian seconds plus 4-byte
little-endian nanoseconds. The Python value `float(sec) + nanos * 1e-9`
is represented exactly by the pair; `0.0` is `⟨0, 0⟩`. -/
structure Timespec where
  sec : Nat
  nsec : Nat
deriving Repr, DecidableEq

/-- One emitted operation: the closed tagged union over the dictionaries
yielded by `BtrfsStreamParser.parse`, one constructor per distinct
`command` string, holding exactly the keys of the yielded dictionary. -/
inductive Op where
  | renamed_from (path path_to : List Nat) (bogus : Bool) (cmd_ref : Nat)
  | rename (path path_to : List Nat) (cmd_ref : Nat)
  | symlink (path path_link : List Nat) (inode : Nat) (cmd_ref : Nat)
  | link (path path_link : List Nat) (cmd_ref : Nat)
  | utimes (path : List Nat) (atime mtime ctime otime : Timespec) (cmd_ref : Nat)
  | mkfile (path : List Nat) (cmd_ref : Nat)
  | mkdir (path : List Nat) (cmd_ref : Nat)
  | unlink (path : List Nat) (cmd_ref : Nat)
  | rmdir (path : List Nat) (cmd_ref : Nat)
  | mkfifo (path : List Nat) (ino rdev : Nat) (cmd_ref : Nat)
  | mksock (path : List Nat) (ino rdev : Nat) (cmd_ref : Nat)
  | truncate (path : List Nat) (to_size : Nat) (cmd_ref : Nat)
  | snapshot (path uuid : List Nat) (ctransid : Nat) (clone_uuid : List Nat)
      (clone_ctransid : Nat) (cmd_ref : Nat)
  | subvol (path uuid : List Nat) (ctrans_id : Nat) (cmd_ref : Nat)
  | mknod (path : List Nat) (mode rdev : Nat) (cmd_ref : Nat)
  | set_xattr (path xattr_name xattr_data : List Nat) (cmd_ref : Nat)
  | remove_xattr (path xattr_name : List Nat) (cmd_ref : Nat)
  | write (path : List Nat) (file_offset : Nat) (data : List Nat) (cmd_ref : Nat)
  | clone (path : List Nat) (file_offset clone_len : Nat) (clone_uuid : List Nat)
      (clone_transid : Nat) (clone_path : List Nat) (clone_offset : Nat) (cmd_ref : Nat)
  | chmod (path : List Nat) (mode : Nat) (cmd_ref : Nat)
  | chown (path : List Nat) (user_id group_id : Nat) (cmd_ref : Nat)
  | update_extent (path : List Nat) (file_offset size : Nat) (cmd_ref : Nat)
  | endCmd (headers_length stream_length : Nat)
  | unspec
deriving Repr, DecidableEq

/-- The `cmd_ref` key of an operation dictionary. The dictionaries for
`end` and `unspec` are yielded without a `cmd_ref` key. -/
def Op.cmdRef? : Op → Option Nat
  | .renamed_from _ _ _ r => some r
  | .rename _ _ r => some r
  | .symlink _ _ _ r => some r
  | .link _ _ r => some r
  | .utimes _ _ _ _ _ r => some r
  | .mkfile _ r => some r
  | .mkdir _ r => some r
  | .unlink _ r => some r
  | .rmdir _ r => some r
  | .mkfifo _ _ _ r => some r
  | .mksock _ _ _ r => some r
  | .truncate _ _ r => some r
  | .snapshot _ _ _ _ _ r => some r
  | .subvol _ _ _ r => some r
  | .mknod _ _ _ r => some r
  | .set_xattr _ _ _ r => some r
  | .remove_xattr _ _ r => some r
  | .write _ _ _ r => some r
  | .clone _ _ _ _ _ _ _ r => some r
  | .chmod _ _ r => some r
  | .chown _ _ _ r => some r
  | .update_extent _ _ _ r => some r
  | .endCmd _ _ => none
  | .unspec => none

/-- Total access to `cmd_ref`, used by `decode` only on operations that
carry one (Python `cmd["cmd_ref"]`). -/
def Op.cmdRefD (op : Op) : Nat := (Op.cmdRef? op).getD 0

/-- True exactly for the terminal `end` operation. -/
def Op.isEnd : Op → Bool
  | .endCmd _ _ => true
  | _ => false

/-- Read and check one 4-byte TLV attribute header at `index`: 2-byte
little-endian attribute code, 2-byte little-endian length
(`unpack("<HH", stream[index : index + 4])` plus the
`SendAttr(attr).name != attr_type` check shared by all `_tlv_get*`
helpers). Returns the declared payload length. -/
def tlvHeader (s : List Nat) (expected : String) (index : Nat) :
    Except DecodeError Nat :=
  if index + 4 ≤ s.length then
    let attr := leVal s index 2
    let lAttr := leVal s (index + 2) 2
    match sendAttrNames[attr]? with
    | none => .error (.unexpectedAttribute attr expected)
    | some actual =>
      if actual = expected then .ok lAttr
      else .error (.unexpectedAttribute attr expected)
  else .error .bufferOverrun

/-- `_tlv_get`: raw payload as a byte tuple. `unpack` with format
`"<{l_attr}B"` requires the slice to hold exactly `l_attr` bytes. -/
def tlv_get (s : List Nat) (expected : String) (index : Nat) :
    Except DecodeError (Nat × List Nat) := do
  let lAttr ← tlvHeader s expected index
  if lAttr ≤ s.length - (index + 4) then
    pure (index + 4 + lAttr, (s.drop (index + 4)).take lAttr)
  else .error .bufferOverrun

/-- `_tlv_get_string`: payload bytes of a string attribute (kept raw,
see the header comment). Format `"<{l_attr}s"` requires the slice to
hold exactly `l_attr` bytes. -/
def tlv_get_string (s : List Nat) (expected : String) (index : Nat) :
    Except DecodeError (Nat × List Nat) := do
  let lAttr ← tlvHeader s expected index
  if lAttr ≤ s.length - (index + 4) then
    pure (index + 4 + lAttr, (s.drop (index + 4)).take lAttr)
  else .error .bufferOverrun

/-- `_tlv_get_u64`: format `"<Q"` requires the slice
`stream[index + 4 : index + 4 + l_attr]` to hold exactly 8 bytes
(its length is `min l_attr (remaining bytes)`). The returned position
advances by the declared `l_attr`, not by 8. -/
def tlv_get_u64 (s : List Nat) (expected : String) (index : Nat) :
    Except DecodeError (Nat × Nat) := do
  let lAttr ← tlvHeader s expected index
  if min lAttr (s.length - (index + 4)) = 8 then
    pure (index + 4 + lAttr, leVal s (index + 4) 8)
  else .error .bufferOverrun

/-- `_tlv_get_uuid`: format `"<16B"` requires the slice to hold exactly
16 bytes; the value is kept as those 16 bytes (the source renders them
as 32 lowercase hex characters, an injective rendering). -/
def tlv_get_uuid (s : List Nat) (expected : String) (index : Nat) :
    Except DecodeError (Nat × List Nat) := do
  let lAttr ← tlvHeader s expected index
  if min lAttr (s.length - (index + 4)) = 16 then
    pure (index + 4 + lAttr, (s.drop (index + 4)).take 16)
  else .error .bufferOverrun

/-- `_tlv_get_timespec`: format `"<QL"` requires the slice to hold
exactly 12 bytes: 8-byte seconds then 4-byte nanoseconds. -/
def tlv_get_timespec (s : List Nat) (expected : String) (index : Nat) :
    Except DecodeError (Nat × Timespec) := do
  let lAttr ← tlvHeader s expected index
  if min lAttr (s.length - (index + 4)) = 12 then
    pure (index + 4 + lAttr, ⟨leVal s (index + 4) 8, leVal s (index + 12) 4⟩)
  else .error .bufferOverrun

/-- The per-command body of the dispatch loop of
`BtrfsStreamParser.parse`: the `elif` chain in source order, minus the
`end` command, which the loop itself intercepts (it breaks without
falling through here, so this function is never invoked with code 21).
`offset` is the position just past the 10-byte command header and
`cmdRef` the current value of the `cmd_ref` counter; the returned list
holds the dictionaries yielded for this command, in order. -/
def decodeBody (s : List Nat) (version : Nat) (bogus : Bool)
    (cmd offset cmdRef : Nat) : Except DecodeError (List Op) :=
  if (sendCmdNames[cmd]?).isNone then .error (.unknownCommand cmd)
  else if cmd = 9 then do
    let (o2, path) ← tlv_get_string s "BTRFS_SEND_A_PATH" offset
    let (_, path_to) ← tlv_get_string s "BTRFS_SEND_A_PATH_TO" o2
    if bogus then
      pure [.renamed_from path path_to true cmdRef,
            .rename path path_to (cmdRef + 1)]
    else
      pure [.rename path path_to cmdRef]
  else if cmd = 8 then do
    let (o2, path) ← tlv_get_string s "BTRFS_SEND_A_PATH" offset
    let (o2, ino) ← tlv_get_u64 s "BTRFS_SEND_A_INO" o2
    let (_, path_link) ← tlv_get_string s "BTRFS_SEND_A_PATH_LINK" o2
    pure [.symlink path path_link ino cmdRef]
  else if cmd = 10 then do
    let (o2, path) ← tlv_get_string s "BTRFS_SEND_A_PATH" offset
    let (_, path_link) ← tlv_get_string s "BTRFS_SEND_A_PATH_LINK" o2
    pure [.link path path_link cmdRef]
  else if cmd = 20 then do
    let (o2, path) ← tlv_get_string s "BTRFS_SEND_A_PATH" offset
    let (o2, atime) ← tlv_get_timespec s "BTRFS_SEND_A_ATIME" o2
    let (o2, mtime) ← tlv_get_timespec s "BTRFS_SEND_A_MTIME" o2
    let (o2, ctime) ← tlv_get_timespec s "BTRFS_SEND_A_CTIME" o2
    if 2 ≤ version then do
      let (_, otime) ← tlv_get_timespec s "BTRFS_SEND_A_OTIME" o2
      pure [.utimes path atime mtime ctime otime cmdRef]
    else
      pure [.utimes path atime mtime ctime ⟨0, 0⟩ cmdRef]
  else if cmd = 3 ∨ cmd = 4 ∨ cmd = 11 ∨ cmd = 12 then do
    let (_, path) ← tlv_get_string s "BTRFS_SEND_A_PATH" offset
    if cmd = 3 then pure [.mkfile path cmdRef]
    else if cmd = 4 then pure [.mkdir path cmdRef]
    else if cmd = 11 then pure [.unlink path cmdRef]
    else pure [.rmdir path cmdRef]
  else if cmd = 6 ∨ cmd = 7 then do
    let (o2, path) ← tlv_get_string s "BTRFS_SEND_A_PATH" offset
    let (o2, ino) ← tlv_get_u64 s "BTRFS_SEND_A_INO" o2
    let (o2, rdev) ← tlv_get_u64 s "BTRFS_SEND_A_RDEV" o2
    let (_, _mode) ← tlv_get_u64 s "BTRFS_SEND_A_MODE" o2
    if cmd = 6 then pure [.mkfifo path ino rdev cmdRef]
    else pure [.mksock path ino rdev cmdRef]
  else if cmd = 17 then do
    let (o2, path) ← tlv_get_string s "BTRFS_SEND_A_PATH" offset
    let (_, size) ← tlv_get_u64 s "BTRFS_SEND_A_SIZE" o2
    pure [.truncate path size cmdRef]
  else if cmd = 2 then do
    let (o2, path) ← tlv_get_string s "BTRFS_SEND_A_PATH" offset
    let (o2, uuid) ← tlv_get_uuid s "BTRFS_SEND_A_UUID" o2
    let (o2, ctransid) ← tlv_get_u64 s "BTRFS_SEND_A_CTRANSID" o2
    let (o2, clone_uuid) ← tlv_get_uuid s "BTRFS_SEND_A_CLONE_UUID" o2
    let (_, clone_ctransid) ← tlv_get_u64 s "BTRFS_SEND_A_CLONE_CTRANSID" o2
    pure [.snapshot path uuid ctransid clone_uuid clone_ctransid cmdRef]
  else if cmd = 1 then do
    let (o2, path) ← tlv_get_string s "BTRFS_SEND_A_PATH" offset
    let (o2, uuid) ← tlv_get_uuid s "BTRFS_SEND_A_UUID" o2
    let (_, ctransid) ← tlv_get_u64 s "BTRFS_SEND_A_CTRANSID" o2
    pure [.subvol path uuid ctransid cmdRef]
  else if cmd = 5 then do
    let (o2, path) ← tlv_get_string s "BTRFS_SEND_A_PATH" offset
    let (o2, mode) ← tlv_get_u64 s "BTRFS_SEND_A_MODE" o2
    let (_, rdev) ← tlv_get_u64 s "BTRFS_SEND_A_RDEV" o2
    pure [.mknod path mode rdev cmdRef]
  else if cmd = 13 then do
    let (o2, path) ← tlv_get_string s "BTRFS_SEND_A_PATH" offset
    let (o2, xattr_name) ← tlv_get_string s "BTRFS_SEND_A_XATTR_NAME" o2
    let (_, xattr_data) ← tlv_get s "BTRFS_SEND_A_XATTR_DATA" o2
    pure [.set_xattr path xattr_name xattr_data cmdRef]
  else if cmd = 14 then do
    let (o2, path) ← tlv_get_string s "BTRFS_SEND_A_PATH" offset
    let (_, xattr_name) ← tlv_get_string s "BTRFS_SEND_A_XATTR_NAME" o2
    pure [.remove_xattr path xattr_name cmdRef]
  else if cmd = 15 then do
    let (o2, path) ← tlv_get_string s "BTRFS_SEND_A_PATH" offset
    let (o2, file_offset) ← tlv_get_u64 s "BTRFS_SEND_A_FILE_OFFSET" o2
    let (_, data) ← tlv_get s "BTRFS_SEND_A_DATA" o2
    pure [.write path file_offset data cmdRef]
  else if cmd = 16 then do
    let (o2, path) ← tlv_get_string s "BTRFS_SEND_A_PATH" offset
    let (o2, file_offset) ← tlv_get_u64 s "BTRFS_SEND_A_FILE_OFFSET" o2
    let (o2, clone_len) ← tlv_get_u64 s "BTRFS_SEND_A_CLONE_LEN" o2
    let (o2, clone_uuid) ← tlv_get_uuid s "BTRFS_SEND_A_CLONE_UUID" o2
    let (o2, clone_transid) ← tlv_get_u64 s "BTRFS_SEND_A_CLONE_TRANSID" o2
    let (o2, clone_path) ← tlv_get_string s "BTRFS_SEND_A_CLONE_PATH" offset
    let (_, clone_offset) ← tlv_get_u64 s "BTRFS_SEND_A_CLONE_OFFSET" o2
    pure [.clone path file_offset clone_len clone_uuid clone_transid
            clone_path clone_offset cmdRef]
  else if cmd = 18 then do
    let (o2, path) ← tlv_get_string s "BTRFS_SEND_A_PATH" offset
    let (_, mode) ← tlv_get_u64 s "BTRFS_SEND_A_MODE" o2
    pure [.chmod path mode cmdRef]
  else if cmd = 19 then do
    let (o2, path) ← tlv_get_string s "BTRFS_SEND_A_PATH" offset
    let (o2, uid) ← tlv_get_u64 s "BTRFS_SEND_A_UID" o2
    let (_, gid) ← tlv_get_u64 s "BTRFS_SEND_A_GID" o2
    pure [.chown path uid gid cmdRef]
  else if cmd = 22 then do
    let (o2, path) ← tlv_get_string s "BTRFS_SEND_A_PATH" offset
    let (o2, file_offset) ← tlv_get_u64 s "BTRFS_SEND_A_FILE_OFFSET" o2
    let (_, size) ← tlv_get_u64 s "BTRFS_SEND_A_SIZE" o2
    pure [.update_extent path file_offset size cmdRef]
  else if cmd = 0 then
    pure [.unspec]
  else
    .error (.unknownCommand cmd)

/-- The dispatch loop of `BtrfsStreamParser.parse`, recursing on fuel
(see the header comment: `stream.length + 1` fuel never runs out).
Each iteration reads the 10-byte command header
`unpack("<IHI", stream[offset : offset + 10])` — body length, command
code, ignored CRC — then either yields the terminal `end` operation and
stops, or decodes the command body and advances by
`10 + declared body length`, the `cmd_ref` counter advancing once per
yielded operation. -/
def parseFrom (s : List Nat) (version : Nat) (bogus : Bool) :
    Nat → Nat → Nat → Except DecodeError (List Op)
  | 0, _, _ => .error .bufferOverrun
  | fuel + 1, offset, cmdRef =>
    if offset + 10 ≤ s.length then
      if leVal s (offset + 4) 2 = 21 then
        .ok [.endCmd (offset + 10) s.length]
      else
        match decodeBody s version bogus (leVal s (offset + 4) 2)
            (offset + 10) cmdRef with
        | .error e => .error e
        | .ok ops =>
          match parseFrom s version bogus fuel (offset + 10 + leVal s offset 4)
              (cmdRef + ops.length) with
          | .error e => .error e
          | .ok rest => .ok (ops ++ rest)
    else .error .bufferOverrun

/-- `BtrfsStreamParser.__init__`: fail unless the buffer is at least 17
bytes long and starts with the 12-byte magic; otherwise
`unpack("<12scI", stream[0:17])` yields the little-endian version from
bytes 13–16 (byte 12 is reserved). -/
def openStream (s : List Nat) : Except DecodeError Nat :=
  if s.length < 17 then .error .invalidStream
  else if s.take 12 ≠ streamMagic then .error .invalidStream
  else .ok (leVal s 13 4)

/-- Open the stream, then run the dispatch loop from byte 17 with the
`cmd_ref` counter at 0 (the whole of `BtrfsStreamParser.parse`). -/
def parse (s : List Nat) (bogus : Bool) : Except DecodeError (List Op) :=
  match openStream s with
  | .error e => .error e
  | .ok version => parseFrom s version bogus (s.length + 1) 17 0

/-- The affected path of an operation as computed by
`BtrfsStreamParser.decode`: `end` and `unspec` are skipped, `rename`
contributes its destination `path_to`, every other operation its
`path`. -/
def affectedPath? : Op → Option (List Nat)
  | .renamed_from path _ _ _ => some path
  | .rename _ path_to _ => some path_to
  | .symlink path _ _ _ => some path
  | .link path _ _ => some path
  | .utimes path _ _ _ _ _ => some path
  | .mkfile path _ => some path
  | .mkdir path _ => some path
  | .unlink path _ => some path
  | .rmdir path _ => some path
  | .mkfifo path _ _ _ => some path
  | .mksock path _ _ _ => some path
  | .truncate path _ _ => some path
  | .snapshot path _ _ _ _ _ => some path
  | .subvol path _ _ _ => some path
  | .mknod path _ _ _ => some path
  | .set_xattr path _ _ _ => some path
  | .remove_xattr path _ _ => some path
  | .write path _ _ _ => some path
  | .clone path _ _ _ _ _ _ _ => some path
  | .chmod path _ _ => some path
  | .chown path _ _ _ => some path
  | .update_extent path _ _ _ => some path
  | .endCmd _ _ => none
  | .unspec => none

/-- `paths.setdefault(path, []).append(cmd_ref)` on an insertion-ordered
association list: append to the existing entry, or create a new entry at
the back on first sight of the path. -/
def addPath (paths : List (List Nat × List Nat)) (p : List Nat) (r : Nat) :
    List (List Nat × List Nat) :=
  match paths with
  | [] => [(p, [r])]
  | (q, rs) :: rest =>
    if q = p then (q, rs ++ [r]) :: rest else (q, rs) :: addPath rest p r

/-- The loop of `BtrfsStreamParser.decode` that fills the path index:
one pass over the operation log, skipping `end` and `unspec`. -/
def buildPathsAux (acc : List (List Nat × List Nat)) :
    List Op → List (List Nat × List Nat)
  | [] => acc
  | op :: rest =>
    match affectedPath? op with
    | none => buildPathsAux acc rest
    | some p => buildPathsAux (addPath acc p (Op.cmdRefD op)) rest

/-- The path index built by `BtrfsStreamParser.decode` from a finished
operation log. -/
def buildPaths (log : List Op) : List (List Nat × List Nat) :=
  buildPathsAux [] log

/-- `BtrfsStreamParser.decode`: the operation log paired with the path
index derived from it. -/
def decode (s : List Nat) (bogus : Bool) :
    Except DecodeError (List Op × List (List Nat × List Nat)) :=
  match parse s bogus with
  | .error e => .error e
  | .ok cmds => .ok (cmds, buildPaths cmds)

/-- First-occurrence order of a list of paths: the key order a Python
`OrderedDict` ends up with after `setdefault` over the list. -/
def firstSeenAux (acc : List (List Nat)) : List (List Nat) → List (List Nat)
  | [] => acc
  | p :: rest => firstSeenAux (if p ∈ acc then acc else acc ++ [p]) rest

/-- First-occurrence order, starting from an empty accumulator. -/
def firstSeen (l : List (List Nat)) : List (List Nat) :=
  firstSeenAux [] l

/-- The `cmd_ref` discipline of an operation log whose first tracked
slot is `r`: the operation at each position carries a `cmd_ref` equal to
its slot number unless it is `end` or `unspec`, which carry none (each
operation consumes one slot of the counter either way). -/
def refSeq : Nat → List Op → Prop
  | _, [] => True
  | r, op :: rest =>
    (Op.cmdRef? op = if Op.isEnd op || (op matches Op.unspec) then none else some r) ∧
    refSeq (r + 1) rest

/-- An entry of the path index is sound for a log when each of its
recorded `cmd_ref`s belongs to an operation of the log whose affected
path is the entry's key. -/
def SoundEntry (log : List Op) (e : List Nat × List Nat) : Prop :=
  ∀ r ∈ e.2, ∃ op ∈ log, affectedPath? op = some e.1 ∧ Op.cmdRef? op = some r

/-- A valid version-1 stream header: magic, one reserved byte, version 1. -/
def hdr1 : List Nat := streamMagic ++ [0, 1, 0, 0, 0]

/-- Concrete stream: an `unspec` command, then `mkdir "a"`, then `end`. -/
def csUnspecMkdir : List Nat :=
  hdr1 ++ [0, 0, 0, 0, 0, 0, 0, 0, 0, 0]
       ++ [5, 0, 0, 0, 4, 0, 0, 0, 0, 0] ++ [15, 0, 1, 0, 97]
       ++ [0, 0, 0, 0, 21, 0, 0, 0, 0, 0]

/-- Concrete stream: a `truncate` command whose `size` TLV declares a
payload length of 100 although only 8 bytes remain in the buffer; the
command's declared body length of 0 then lands the loop on bytes that
read as an `end` header. -/
def csOverrun : List Nat :=
  hdr1 ++ [0, 0, 0, 0, 17, 0, 0, 0, 0, 0]
       ++ [15, 0, 2, 0, 21, 0]
       ++ [4, 0, 100, 0, 1, 2, 3, 4, 5, 6, 7, 8]

/-- Concrete stream: one `clone` command whose body holds the seven
attributes `path`, `file_offset`, `clone_len`, `clone_uuid`,
`clone_ctransid`, `clone_path`, `clone_offset`, in exactly that order
and each well-formed, followed by `end`. -/
def csClone : List Nat :=
  hdr1 ++ [78, 0, 0, 0, 16, 0, 0, 0, 0, 0]
       ++ [15, 0, 1, 0, 97]
       ++ [18, 0, 8, 0, 0, 0, 0, 0, 0, 0, 0, 0]
       ++ [24, 0, 8, 0, 0, 0, 0, 0, 0, 0, 0, 0]
       ++ [20, 0, 16, 0, 0, 0, 0, 0, 0, 0, 0, 0, 0, 0, 0, 0, 0, 0, 0, 0]
       ++ [21, 0, 8, 0, 0, 0, 0, 0, 0, 0, 0, 0]
       ++ [22, 0, 1, 0, 98]
       ++ [23, 0, 8, 0, 0, 0, 0, 0, 0, 0, 0, 0]
       ++ [0, 0, 0, 0, 21, 0, 0, 0, 0, 0]

/-- Concrete stream: just an `end` command, with three trailing bytes
left over after it. -/
def csEndJunk : List Nat :=
  hdr1 ++ [0, 0, 0, 0, 21, 0, 0, 0, 0, 0] ++ [99, 99, 99]

/-- Concrete stream: a single command header carrying code 23
(`BTRFS_SEND_C_FALLOCATE`, outside the supported catalog). -/
def csCmd23 : List Nat :=
  hdr1 ++ [0, 0, 0, 0, 23, 0, 0, 0, 0, 0]

/-- Concrete stream: `mkdir "b"`, `mkdir "a"`, `rmdir "b"`, `end` —
paths deliberately out of lexical order. -/
def csTwoPaths : List Nat :=
  hdr1 ++ [5, 0, 0, 0, 4, 0, 0, 0, 0, 0] ++ [15, 0, 1, 0, 98]
       ++ [5, 0, 0, 0, 4, 0, 0, 0, 0, 0] ++ [15, 0, 1, 0, 97]
       ++ [5, 0, 0, 0, 12, 0, 0, 0, 0, 0] ++ [15, 0, 1, 0, 98]
       ++ [0, 0, 0, 0, 21, 0, 0, 0, 0, 0]

/-- Concrete version-1 stream: a `utimes` command carrying only `path`,
`atime`, `mtime`, `ctime` (no `otime` attribute), then `end`. -/
def csUtimesV1 : List Nat :=
  hdr1 ++ [53, 0, 0, 0, 20, 0, 0, 0, 0, 0]
       ++ [15, 0, 1, 0, 97]
       ++ [11, 0, 12, 0, 1, 0, 0, 0, 0, 0, 0, 0, 2, 0, 0, 0]
       ++ [10, 0, 12, 0, 3, 0, 0, 0, 0, 0, 0, 0, 4, 0, 0, 0]
       ++ [9, 0, 12, 0, 5, 0, 0, 0, 0, 0, 0, 0, 6, 0, 0, 0]
       ++ [0, 0, 0, 0, 21, 0, 0, 0, 0, 0]

/-- Concrete stream: a `mkfifo` command with attributes `path` = "a",
`ino` = 1, `rdev` = 2, `mode` = 3, then `end`. -/
def csMkfifo : List Nat :=
  hdr1 ++ [41, 0, 0, 0, 6, 0, 0, 0, 0, 0]
       ++ [15, 0, 1, 0, 97]
       ++ [3, 0, 8, 0, 1, 0, 0, 0, 0, 0, 0, 0]
       ++ [8, 0, 8, 0, 2, 0, 0, 0, 0, 0, 0, 0]
       ++ [5, 0, 8, 0, 3, 0, 0, 0, 0, 0, 0, 0]
       ++ [0, 0, 0, 0, 21, 0, 0, 0, 0, 0]

/-- Concrete stream: a `mkdir` command whose header declares a body
length of 8 although its TLV decoding consumes only 5 bytes; the `end`
command sits at the position implied by the declared length. -/
def csPadded : List Nat :=
  hdr1 ++ [8, 0, 0, 0, 4, 0, 0, 0, 0, 0] ++ [15, 0, 1, 0, 97] ++ [0, 0, 0]
       ++ [0, 0, 0, 0, 21, 0, 0, 0, 0, 0]

/-- A stray TLV fragment: a `path` attribute header declaring 5 payload
bytes with only one byte remaining after it. -/
def csShortTlv : List Nat := [15, 0, 5, 0, 97]

theorem exceptBind_ok {ε α β : Type} {m : Except ε α} {f : α → Except ε β} {b : β} :
    m >>= f = .ok b ↔ ∃ a, m = .ok a ∧ f a = .ok b := by
  cases m <;> simp [Bind.bind, Except.bind]

theorem refSeq_append {l1 l2 : List Op} :
    ∀ r : Nat, refSeq r l1 → refSeq (r + l1.length) l2 → refSeq r (l1 ++ l2) := by
  induction l1 with
  | nil => intro r _ h2; simpa using h2
  | cons op rest ih =>
    intro r h1 h2
    obtain ⟨hop, hrest⟩ := h1
    refine ⟨hop, ih (r + 1) hrest ?_⟩
    have : r + 1 + rest.length = r + (rest.length + 1) := by omega
    simpa [this] using h2

/-- Every list of operations yielded by one command of the dispatch
chain assigns `cmd_ref`s consecutively from the entry counter and never
contains the terminal `end` operation. -/
theorem decodeBody_ok_shape (s : List Nat) (v : Nat) (b : Bool)
    (cmd off r : Nat) (ops : List Op)
    (h : decodeBody s v b cmd off r = .ok ops) :
    refSeq r ops ∧ ∀ op ∈ ops, Op.isEnd op = false := by
  by_cases h9 : cmd = 9
  · subst h9
    have h2 : (do
        let (o2, path) ← tlv_get_string s "BTRFS_SEND_A_PATH" off
        let (_, path_to) ← tlv_get_string s "BTRFS_SEND_A_PATH_TO" o2
        if b then
          pure [Op.renamed_from path path_to true r,
                Op.rename path path_to (r + 1)]
        else
          pure [Op.rename path path_to r] : Except DecodeError (List Op)) = .ok ops := h
    simp only [exceptBind_ok] at h2
    obtain ⟨⟨o2, path⟩, _, h2⟩ := h2
    obtain ⟨⟨o3, path_to⟩, _, h2⟩ := h2
    cases b with
    | true =>
      rw [if_pos rfl] at h2
      simp only [pure, Except.pure, Except.ok.injEq] at h2
      subst h2
      simp [refSeq, Op.cmdRef?, Op.isEnd]
    | false =>
      rw [if_neg (by simp)] at h2
      simp only [pure, Except.pure, Except.ok.injEq] at h2
      subst h2
      simp [refSeq, Op.cmdRef?, Op.isEnd]
  by_cases h8 : cmd = 8
  · subst h8
    have h2 : (do
        let (o2, path) ← tlv_get_string s "BTRFS_SEND_A_PATH" off
        let (o2, ino) ← tlv_get_u64 s "BTRFS_SEND_A_INO" o2
        let (_, path_link) ← tlv_get_string s "BTRFS_SEND_A_PATH_LINK" o2
        pure [Op.symlink path path_link ino r] : Except DecodeError (List Op)) = .ok ops := h
    simp only [exceptBind_ok] at h2
    obtain ⟨⟨o2, path⟩, _, h2⟩ := h2
    obtain ⟨⟨o3, ino⟩, _, h2⟩ := h2
    obtain ⟨⟨o4, path_link⟩, _, h2⟩ := h2
    simp only [pure, Except.pure, Except.ok.injEq] at h2
    subst h2
    simp [refSeq, Op.cmdRef?, Op.isEnd]
  by_cases h10 : cmd = 10
  · subst h10
    have h2 : (do
        let (o2, path) ← tlv_get_string s "BTRFS_SEND_A_PATH" off
        let (_, path_link) ← tlv_get_string s "BTRFS_SEND_A_PATH_LINK" o2
        pure [Op.link path path_link r] : Except DecodeError (List Op)) = .ok ops := h
    simp only [exceptBind_ok] at h2
    obtain ⟨⟨o2, path⟩, _, h2⟩ := h2
    obtain ⟨⟨o3, path_link⟩, _, h2⟩ := h2
    simp only [pure, Except.pure, Except.ok.injEq] at h2
    subst h2
    simp [refSeq, Op.cmdRef?, Op.isEnd]
  by_cases h20 : cmd = 20
  · subst h20
    have h2 : (do
        let (o2, path) ← tlv_get_string s "BTRFS_SEND_A_PATH" off
        let (o2, atime) ← tlv_get_timespec s "BTRFS_SEND_A_ATIME" o2
        let (o2, mtime) ← tlv_get_timespec s "BTRFS_SEND_A_MTIME" o2
        let (o2, ctime) ← tlv_get_timespec s "BTRFS_SEND_A_CTIME" o2
        if 2 ≤ v then do
          let (_, otime) ← tlv_get_timespec s "BTRFS_SEND_A_OTIME" o2
          pure [Op.utimes path atime mtime ctime otime r]
        else
          pure [Op.utimes path atime mtime ctime ⟨0, 0⟩ r] :
          Except DecodeError (List Op)) = .ok ops := h
    simp only [exceptBind_ok] at h2
    obtain ⟨⟨o2, path⟩, _, h2⟩ := h2
    obtain ⟨⟨o3, atime⟩, _, h2⟩ := h2
    obtain ⟨⟨o4, mtime⟩, _, h2⟩ := h2
    obtain ⟨⟨o5, ctime⟩, _, h2⟩ := h2
    by_cases hv : 2 ≤ v
    · rw [if_pos hv] at h2
      simp only [exceptBind_ok] at h2
      obtain ⟨⟨o6, otime⟩, _, h2⟩ := h2
      simp only [pure, Except.pure, Except.ok.injEq] at h2
      subst h2
      simp [refSeq, Op.cmdRef?, Op.isEnd]
    · rw [if_neg hv] at h2
      simp only [pure, Except.pure, Except.ok.injEq] at h2
      subst h2
      simp [refSeq, Op.cmdRef?, Op.isEnd]
  by_cases hA : cmd = 3 ∨ cmd = 4 ∨ cmd = 11 ∨ cmd = 12
  · rcases hA with h3 | h4 | h11 | h12
    · subst h3
      have h2 : (do
          let (_, path) ← tlv_get_string s "BTRFS_SEND_A_PATH" off
          pure [Op.mkfile path r] : Except DecodeError (List Op)) = .ok ops := h
      simp only [exceptBind_ok] at h2
      obtain ⟨⟨o2, path⟩, _, h2⟩ := h2
      simp only [pure, Except.pure, Except.ok.injEq] at h2
      subst h2
      simp [refSeq, Op.cmdRef?, Op.isEnd]
    · subst h4
      have h2 : (do
          let (_, path) ← tlv_get_string s "BTRFS_SEND_A_PATH" off
          pure [Op.mkdir path r] : Except DecodeError (List Op)) = .ok ops := h
      simp only [exceptBind_ok] at h2
      obtain ⟨⟨o2, path⟩, _, h2⟩ := h2
      simp only [pure, Except.pure, Except.ok.injEq] at h2
      subst h2
      simp [refSeq, Op.cmdRef?, Op.isEnd]
    · subst h11
      have h2 : (do
          let (_, path) ← tlv_get_string s "BTRFS_SEND_A_PATH" off
          pure [Op.unlink path r] : Except DecodeError (List Op)) = .ok ops := h
      simp only [exceptBind_ok] at h2
      obtain ⟨⟨o2, path⟩, _, h2⟩ := h2
      simp only [pure, Except.pure, Except.ok.injEq] at h2
      subst h2
      simp [refSeq, Op.cmdRef?, Op.isEnd]
    · subst h12
      have h2 : (do
          let (_, path) ← tlv_get_string s "BTRFS_SEND_A_PATH" off
          pure [Op.rmdir path r] : Except DecodeError (List Op)) = .ok ops := h
      simp only [exceptBind_ok] at h2
      obtain ⟨⟨o2, path⟩, _, h2⟩ := h2
      simp only [pure, Except.pure, Except.ok.injEq] at h2
      subst h2
      simp [refSeq, Op.cmdRef?, Op.isEnd]
  by_cases hB : cmd = 6 ∨ cmd = 7
  · rcases hB with h6 | h7
    · subst h6
      have h2 : (do
          let (o2, path) ← tlv_get_string s "BTRFS_SEND_A_PATH" off
          let (o2, ino) ← tlv_get_u64 s "BTRFS_SEND_A_INO" o2
          let (o2, rdev) ← tlv_get_u64 s "BTRFS_SEND_A_RDEV" o2
          let (_, _mode) ← tlv_get_u64 s "BTRFS_SEND_A_MODE" o2
          pure [Op.mkfifo path ino rdev r] : Except DecodeError (List Op)) = .ok ops := h
      simp only [exceptBind_ok] at h2
      obtain ⟨⟨o2, path⟩, _, h2⟩ := h2
      obtain ⟨⟨o3, ino⟩, _, h2⟩ := h2
      obtain ⟨⟨o4, rdev⟩, _, h2⟩ := h2
      obtain ⟨⟨o5, md⟩, _, h2⟩ := h2
      simp only [pure, Except.pure, Except.ok.injEq] at h2
      subst h2
      simp [refSeq, Op.cmdRef?, Op.isEnd]
    · subst h7
      have h2 : (do
          let (o2, path) ← tlv_get_string s "BTRFS_SEND_A_PATH" off
          let (o2, ino) ← tlv_get_u64 s "BTRFS_SEND_A_INO" o2
          let (o2, rdev) ← tlv_get_u64 s "BTRFS_SEND_A_RDEV" o2
          let (_, _mode) ← tlv_get_u64 s "BTRFS_SEND_A_MODE" o2
          pure [Op.mksock path ino rdev r] : Except DecodeError (List Op)) = .ok ops := h
      simp only [exceptBind_ok] at h2
      obtain ⟨⟨o2, path⟩, _, h2⟩ := h2
      obtain ⟨⟨o3, ino⟩, _, h2⟩ := h2
      obtain ⟨⟨o4, rdev⟩, _, h2⟩ := h2
      obtain ⟨⟨o5, md⟩, _, h2⟩ := h2
      simp only [pure, Except.pure, Except.ok.injEq] at h2
      subst h2
      simp [refSeq, Op.cmdRef?, Op.isEnd]
  by_cases h17 : cmd = 17
  · subst h17
    have h2 : (do
        let (o2, path) ← tlv_get_string s "BTRFS_SEND_A_PATH" off
        let (_, size) ← tlv_get_u64 s "BTRFS_SEND_A_SIZE" o2
        pure [Op.truncate path size r] : Except DecodeError (List Op)) = .ok ops := h
    simp only [exceptBind_ok] at h2
    obtain ⟨⟨o2, path⟩, _, h2⟩ := h2
    obtain ⟨⟨o3, size⟩, _, h2⟩ := h2
    simp only [pure, Except.pure, Except.ok.injEq] at h2
    subst h2
    simp [refSeq, Op.cmdRef?, Op.isEnd]
  by_cases h2c : cmd = 2
  · subst h2c
    have h2 : (do
        let (o2, path) ← tlv_get_string s "BTRFS_SEND_A_PATH" off
        let (o2, uuid) ← tlv_get_uuid s "BTRFS_SEND_A_UUID" o2
        let (o2, ctransid) ← tlv_get_u64 s "BTRFS_SEND_A_CTRANSID" o2
        let (o2, clone_uuid) ← tlv_get_uuid s "BTRFS_SEND_A_CLONE_UUID" o2
        let (_, clone_ctransid) ← tlv_get_u64 s "BTRFS_SEND_A_CLONE_CTRANSID" o2
        pure [Op.snapshot path uuid ctransid clone_uuid clone_ctransid r] : Except DecodeError (List Op)) = .ok ops := h
    simp only [exceptBind_ok] at h2
    obtain ⟨⟨o2, path⟩, _, h2⟩ := h2
    obtain ⟨⟨o3, uuid⟩, _, h2⟩ := h2
    obtain ⟨⟨o4, ctransid⟩, _, h2⟩ := h2
    obtain ⟨⟨o5, clone_uuid⟩, _, h2⟩ := h2
    obtain ⟨⟨o6, clone_ctransid⟩, _, h2⟩ := h2
    simp only [pure, Except.pure, Except.ok.injEq] at h2
    subst h2
    simp [refSeq, Op.cmdRef?, Op.isEnd]
  by_cases h1c : cmd = 1
  · subst h1c
    have h2 : (do
        let (o2, path) ← tlv_get_string s "BTRFS_SEND_A_PATH" off
        let (o2, uuid) ← tlv_get_uuid s "BTRFS_SEND_A_UUID" o2
        let (_, ctransid) ← tlv_get_u64 s "BTRFS_SEND_A_CTRANSID" o2
        pure [Op.subvol path uuid ctransid r] : Except DecodeError (List Op)) = .ok ops := h
    simp only [exceptBind_ok] at h2
    obtain ⟨⟨o2, path⟩, _, h2⟩ := h2
    obtain ⟨⟨o3, uuid⟩, _, h2⟩ := h2
    obtain ⟨⟨o4, ctransid⟩, _, h2⟩ := h2
    simp only [pure, Except.pure, Except.ok.injEq] at h2
    subst h2
    simp [refSeq, Op.cmdRef?, Op.isEnd]
  by_cases h5 : cmd = 5
  · subst h5
    have h2 : (do
        let (o2, path) ← tlv_get_string s "BTRFS_SEND_A_PATH" off
        let (o2, mode) ← tlv_get_u64 s "BTRFS_SEND_A_MODE" o2
        let (_, rdev) ← tlv_get_u64 s "BTRFS_SEND_A_RDEV" o2
        pure [Op.mknod path mode rdev r] : Except DecodeError (List Op)) = .ok ops := h
    simp only [exceptBind_ok] at h2
    obtain ⟨⟨o2, path⟩, _, h2⟩ := h2
    obtain ⟨⟨o3, mode⟩, _, h2⟩ := h2
    obtain ⟨⟨o4, rdev⟩, _, h2⟩ := h2
    simp only [pure, Except.pure, Except.ok.injEq] at h2
    subst h2
    simp [refSeq, Op.cmdRef?, Op.isEnd]
  by_cases h13 : cmd = 13
  · subst h13
    have h2 : (do
        let (o2, path) ← tlv_get_string s "BTRFS_SEND_A_PATH" off
        let (o2, xattr_name) ← tlv_get_string s "BTRFS_SEND_A_XATTR_NAME" o2
        let (_, xattr_data) ← tlv_get s "BTRFS_SEND_A_XATTR_DATA" o2
        pure [Op.set_xattr path xattr_name xattr_data r] : Except DecodeError (List Op)) = .ok ops := h
    simp only [exceptBind_ok] at h2
    obtain ⟨⟨o2, path⟩, _, h2⟩ := h2
    obtain ⟨⟨o3, xattr_name⟩, _, h2⟩ := h2
    obtain ⟨⟨o4, xattr_data⟩, _, h2⟩ := h2
    simp only [pure, Except.pure, Except.ok.injEq] at h2
    subst h2
    simp [refSeq, Op.cmdRef?, Op.isEnd]
  by_cases h14 : cmd = 14
  · subst h14
    have h2 : (do
        let (o2, path) ← tlv_get_string s "BTRFS_SEND_A_PATH" off
        let (_, xattr_name) ← tlv_get_string s "BTRFS_SEND_A_XATTR_NAME" o2
        pure [Op.remove_xattr path xattr_name r] : Except DecodeError (List Op)) = .ok ops := h
    simp only [exceptBind_ok] at h2
    obtain ⟨⟨o2, path⟩, _, h2⟩ := h2
    obtain ⟨⟨o3, xattr_name⟩, _, h2⟩ := h2
    simp only [pure, Except.pure, Except.ok.injEq] at h2
    subst h2
    simp [refSeq, Op.cmdRef?, Op.isEnd]
  by_cases h15 : cmd = 15
  · subst h15
    have h2 : (do
        let (o2, path) ← tlv_get_string s "BTRFS_SEND_A_PATH" off
        let (o2, file_offset) ← tlv_get_u64 s "BTRFS_SEND_A_FILE_OFFSET" o2
        let (_, data) ← tlv_get s "BTRFS_SEND_A_DATA" o2
        pure [Op.write path file_offset data r] : Except DecodeError (List Op)) = .ok ops := h
    simp only [exceptBind_ok] at h2
    obtain ⟨⟨o2, path⟩, _, h2⟩ := h2
    obtain ⟨⟨o3, file_offset⟩, _, h2⟩ := h2
    obtain ⟨⟨o4, data⟩, _, h2⟩ := h2
    simp only [pure, Except.pure, Except.ok.injEq] at h2
    subst h2
    simp [refSeq, Op.cmdRef?, Op.isEnd]
  by_cases h16 : cmd = 16
  · subst h16
    have h2 : (do
        let (o2, path) ← tlv_get_string s "BTRFS_SEND_A_PATH" off
        let (o2, file_offset) ← tlv_get_u64 s "BTRFS_SEND_A_FILE_OFFSET" o2
        let (o2, clone_len) ← tlv_get_u64 s "BTRFS_SEND_A_CLONE_LEN" o2
        let (o2, clone_uuid) ← tlv_get_uuid s "BTRFS_SEND_A_CLONE_UUID" o2
        let (o2, clone_transid) ← tlv_get_u64 s "BTRFS_SEND_A_CLONE_TRANSID" o2
        let (o2, clone_path) ← tlv_get_string s "BTRFS_SEND_A_CLONE_PATH" off
        let (_, clone_offset) ← tlv_get_u64 s "BTRFS_SEND_A_CLONE_OFFSET" o2
        pure [Op.clone path file_offset clone_len clone_uuid clone_transid
                clone_path clone_offset r] : Except DecodeError (List Op)) = .ok ops := h
    simp only [exceptBind_ok] at h2
    obtain ⟨⟨o2, path⟩, _, h2⟩ := h2
    obtain ⟨⟨o3, file_offset⟩, _, h2⟩ := h2
    obtain ⟨⟨o4, clone_len⟩, _, h2⟩ := h2
    obtain ⟨⟨o5, clone_uuid⟩, _, h2⟩ := h2
    obtain ⟨⟨o6, clone_transid⟩, _, h2⟩ := h2
    obtain ⟨⟨o7, clone_path⟩, _, h2⟩ := h2
    obtain ⟨⟨o8, clone_offset⟩, _, h2⟩ := h2
    simp only [pure, Except.pure, Except.ok.injEq] at h2
    subst h2
    simp [refSeq, Op.cmdRef?, Op.isEnd]
  by_cases h18 : cmd = 18
  · subst h18
    have h2 : (do
        let (o2, path) ← tlv_get_string s "BTRFS_SEND_A_PATH" off
        let (_, mode) ← tlv_get_u64 s "BTRFS_SEND_A_MODE" o2
        pure [Op.chmod path mode r] : Except DecodeError (List Op)) = .ok ops := h
    simp only [exceptBind_ok] at h2
    obtain ⟨⟨o2, path⟩, _, h2⟩ := h2
    obtain ⟨⟨o3, mode⟩, _, h2⟩ := h2
    simp only [pure, Except.pure, Except.ok.injEq] at h2
    subst h2
    simp [refSeq, Op.cmdRef?, Op.isEnd]
  by_cases h19 : cmd = 19
  · subst h19
    have h2 : (do
        let (o2, path) ← tlv_get_string s "BTRFS_SEND_A_PATH" off
        let (o2, uid) ← tlv_get_u64 s "BTRFS_SEND_A_UID" o2
        let (_, gid) ← tlv_get_u64 s "BTRFS_SEND_A_GID" o2
        pure [Op.chown path uid gid r] : Except DecodeError (List Op)) = .ok ops := h
    simp only [exceptBind_ok] at h2
    obtain ⟨⟨o2, path⟩, _, h2⟩ := h2
    obtain ⟨⟨o3, uid⟩, _, h2⟩ := h2
    obtain ⟨⟨o4, gid⟩, _, h2⟩ := h2
    simp only [pure, Except.pure, Except.ok.injEq] at h2
    subst h2
    simp [refSeq, Op.cmdRef?, Op.isEnd]
  by_cases h22 : cmd = 22
  · subst h22
    have h2 : (do
        let (o2, path) ← tlv_get_string s "BTRFS_SEND_A_PATH" off
        let (o2, file_offset) ← tlv_get_u64 s "BTRFS_SEND_A_FILE_OFFSET" o2
        let (_, size) ← tlv_get_u64 s "BTRFS_SEND_A_SIZE" o2
        pure [Op.update_extent path file_offset size r] : Except DecodeError (List Op)) = .ok ops := h
    simp only [exceptBind_ok] at h2
    obtain ⟨⟨o2, path⟩, _, h2⟩ := h2
    obtain ⟨⟨o3, file_offset⟩, _, h2⟩ := h2
    obtain ⟨⟨o4, size⟩, _, h2⟩ := h2
    simp only [pure, Except.pure, Except.ok.injEq] at h2
    subst h2
    simp [refSeq, Op.cmdRef?, Op.isEnd]
  by_cases h0 : cmd = 0
  · subst h0
    have h2 : (pure [Op.unspec] : Except DecodeError (List Op)) = .ok ops := h
    simp only [pure, Except.pure, Except.ok.injEq] at h2
    subst h2
    simp [refSeq, Op.cmdRef?, Op.isEnd]
  exfalso
  unfold decodeBody at h
  by_cases hn : (sendCmdNames[cmd]?).isNone = true
  · rw [if_pos hn] at h
    exact absurd h (by simp)
  · rw [if_neg hn, if_neg h9, if_neg h8, if_neg h10, if_neg h20, if_neg hA,
      if_neg hB, if_neg h17, if_neg h2c, if_neg h1c, if_neg h5, if_neg h13,
      if_neg h14, if_neg h15, if_neg h16, if_neg h18, if_neg h19, if_neg h22,
      if_neg h0] at h
    exact absurd h (by simp)

/-- Any command code from 23 up (the version-2/3 extensions that are in
the enum but not in the dispatch chain, and every code outside the enum)
makes the dispatch raise the unknown-command error. -/
theorem decodeBody_unknown (s : List Nat) (v : Nat) (b : Bool)
    (off r cmd : Nat) (h : 23 ≤ cmd) :
    decodeBody s v b cmd off r = .error (.unknownCommand cmd) := by
  by_cases h27 : cmd < 27
  · interval_cases cmd <;> rfl
  · have hn : sendCmdNames[cmd]? = none := by
      apply List.getElem?_eq_none
      show sendCmdNames.length ≤ cmd
      have : sendCmdNames.length = 27 := by rfl
      omega
    unfold decodeBody
    rw [hn]
    rfl

/-- The operation log produced by the dispatch loop satisfies the
positional `cmd_ref` discipline starting from the entry counter. -/
theorem parseFrom_refSeq (s : List Nat) (v : Nat) (b : Bool) :
    ∀ (fuel offset r : Nat) (log : List Op),
      parseFrom s v b fuel offset r = .ok log → refSeq r log := by
  intro fuel
  induction fuel with
  | zero => intro offset r log h; exact absurd h (by simp [parseFrom])
  | succ fuel ih =>
    intro offset r log h
    simp only [parseFrom] at h
    by_cases hlen : offset + 10 ≤ s.length
    · rw [if_pos hlen] at h
      by_cases hend : leVal s (offset + 4) 2 = 21
      · rw [if_pos hend] at h
        injection h with h
        subst h
        simp [refSeq, Op.cmdRef?, Op.isEnd]
      · rw [if_neg hend] at h
        split at h
        · exact absurd h (by simp)
        · rename_i ops hops
          split at h
          · exact absurd h (by simp)
          · rename_i rest hrest
            injection h with h
            subst h
            exact refSeq_append r (decodeBody_ok_shape s v b _ _ r ops hops).1
              (ih _ _ _ hrest)
    · rw [if_neg hlen] at h
      exact absurd h (by simp)

/-- A successful run of the dispatch loop ends in exactly one `end`
operation, placed last, carrying the total buffer length and a
`headers_length` that is the read position just past a command header
whose code field holds 21. -/
theorem parseFrom_end_shape (s : List Nat) (v : Nat) (b : Bool) :
    ∀ (fuel offset r : Nat) (log : List Op),
      parseFrom s v b fuel offset r = .ok log →
      ∃ pre hl, log = pre ++ [Op.endCmd hl s.length] ∧
        (∀ op ∈ pre, Op.isEnd op = false) ∧
        10 ≤ hl ∧ hl ≤ s.length ∧ leVal s (hl - 6) 2 = 21 := by
  intro fuel
  induction fuel with
  | zero => intro offset r log h; exact absurd h (by simp [parseFrom])
  | succ fuel ih =>
    intro offset r log h
    simp only [parseFrom] at h
    by_cases hlen : offset + 10 ≤ s.length
    · rw [if_pos hlen] at h
      by_cases hend : leVal s (offset + 4) 2 = 21
      · rw [if_pos hend] at h
        injection h with h
        subst h
        refine ⟨[], offset + 10, by simp, by simp, by omega, hlen, ?_⟩
        have harith : offset + 10 - 6 = offset + 4 := by omega
        rw [harith]
        exact hend
      · rw [if_neg hend] at h
        split at h
        · exact absurd h (by simp)
        · rename_i ops hops
          split at h
          · exact absurd h (by simp)
          · rename_i rest hrest
            injection h with h
            subst h
            obtain ⟨pre, hl, hlog, hpre, h10, hle, h21⟩ := ih _ _ _ hrest
            refine ⟨ops ++ pre, hl, by simp [hlog], ?_, h10, hle, h21⟩
            intro op hop
            rcases List.mem_append.mp hop with h1 | h1
            · exact (decodeBody_ok_shape s v b _ _ _ ops hops).2 op h1
            · exact hpre op h1
    · rw [if_neg hlen] at h
      exact absurd h (by simp)

/-- Keys of the path index after one `setdefault`-append: unchanged when
the path is already a key, extended at the back otherwise. -/
theorem addPath_map_fst (acc : List (List Nat × List Nat)) (p : List Nat) (r : Nat) :
    (addPath acc p r).map Prod.fst =
      if p ∈ acc.map Prod.fst then acc.map Prod.fst
      else acc.map Prod.fst ++ [p] := by
  induction acc with
  | nil => simp [addPath]
  | cons e rest ih =>
    obtain ⟨q, rs⟩ := e
    by_cases hq : q = p
    · subst hq
      simp [addPath]
    · by_cases hp : p ∈ rest.map Prod.fst
      · simp [addPath, hq, ih, hp, Ne.symm hq]
      · simp [addPath, hq, ih, hp, Ne.symm hq]

/-- Membership in the path index after one `setdefault`-append. -/
theorem addPath_mem (acc : List (List Nat × List Nat)) (p : List Nat) (r : Nat) :
    ∀ e ∈ addPath acc p r,
      e ∈ acc ∨ (∃ rs, (p, rs) ∈ acc ∧ e = (p, rs ++ [r])) ∨ e = (p, [r]) := by
  induction acc with
  | nil =>
    intro e he
    simp [addPath] at he
    right; right; exact he
  | cons q rest ih =>
    obtain ⟨q1, rs1⟩ := q
    intro e he
    by_cases hq : q1 = p
    · subst hq
      rw [addPath, if_pos rfl] at he
      rcases List.mem_cons.mp he with he | he
      · right; left; exact ⟨rs1, List.mem_cons_self _ _, he⟩
      · left; exact List.mem_cons_of_mem _ he
    · rw [addPath, if_neg hq] at he
      rcases List.mem_cons.mp he with he | he
      · left; rw [he]; exact List.mem_cons_self _ _
      · rcases ih e he with h1 | h1 | h1
        · left; exact List.mem_cons_of_mem _ h1
        · right; left
          obtain ⟨rs, hmem, heq⟩ := h1
          exact ⟨rs, List.mem_cons_of_mem _ hmem, heq⟩
        · right; right; exact h1

/-- An operation with an affected path always carries a `cmd_ref`. -/
theorem affectedPath_cmdRef (op : Op) (p : List Nat)
    (h : affectedPath? op = some p) :
    Op.cmdRef? op = some (Op.cmdRefD op) := by
  cases op <;> simp_all [affectedPath?, Op.cmdRef?, Op.cmdRefD]

/-- Key order of the path index: first-occurrence order of the affected
paths of the traversed operations. -/
theorem buildPathsAux_map_fst :
    ∀ (log : List Op) (acc : List (List Nat × List Nat)),
      (buildPathsAux acc log).map Prod.fst =
        firstSeenAux (acc.map Prod.fst) (log.filterMap affectedPath?) := by
  intro log
  induction log with
  | nil => intro acc; simp [buildPathsAux, firstSeenAux]
  | cons op rest ih =>
    intro acc
    cases hap : affectedPath? op with
    | none => simp [buildPathsAux, hap, List.filterMap_cons, ih]
    | some p =>
      simp only [buildPathsAux, hap, List.filterMap_cons]
      rw [ih, addPath_map_fst]
      rfl

/-- Every entry accumulated by the path-index loop is non-empty and
sound for the surrounding log. -/
theorem buildPathsAux_sound (L : List Op) :
    ∀ (log : List Op) (acc : List (List Nat × List Nat)),
      (∀ op ∈ log, op ∈ L) →
      (∀ e ∈ acc, e.2 ≠ [] ∧ SoundEntry L e) →
      ∀ e ∈ buildPathsAux acc log, e.2 ≠ [] ∧ SoundEntry L e := by
  intro log
  induction log with
  | nil => intro acc _ hacc e he; exact hacc e he
  | cons op rest ih =>
    intro acc hsub hacc e he
    cases hap : affectedPath? op with
    | none =>
      simp only [buildPathsAux, hap] at he
      exact ih acc (fun x hx => hsub x (List.mem_cons_of_mem _ hx)) hacc e he
    | some p =>
      simp only [buildPathsAux, hap] at he
      refine ih (addPath acc p (Op.cmdRefD op))
        (fun x hx => hsub x (List.mem_cons_of_mem _ hx)) ?_ e he
      intro e2 he2
      have hopL : op ∈ L := hsub op (List.mem_cons_self _ _)
      have hopref : Op.cmdRef? op = some (Op.cmdRefD op) := affectedPath_cmdRef op p hap
      rcases addPath_mem acc p (Op.cmdRefD op) e2 he2 with h1 | h1 | h1
      · exact hacc e2 h1
      · obtain ⟨rs, hmem, heq⟩ := h1
        subst heq
        constructor
        · simp
        · intro r2 hr2
          rcases List.mem_append.mp hr2 with hr2 | hr2
          · exact (hacc (p, rs) hmem).2 r2 hr2
          · simp at hr2
            subst hr2
            exact ⟨op, hopL, hap, hopref⟩
      · subst h1
        constructor
        · simp
        · intro r2 hr2
          simp at hr2
          subst hr2
          exact ⟨op, hopL, hap, hopref⟩

/-- Soundness of the finished path index. -/
theorem buildPaths_sound (log : List Op) :
    ∀ e ∈ buildPaths log, e.2 ≠ [] ∧ SoundEntry log e :=
  buildPathsAux_sound log log [] (fun _ h => h) (by simp)

/-- Key order of the finished path index. -/
theorem buildPaths_map_fst (log : List Op) :
    (buildPaths log).map Prod.fst = firstSeen (log.filterMap affectedPath?) := by
  simpa [buildPaths, firstSeen] using buildPathsAux_map_fst log []

theorem ok_bind {ε α β : Type} (a : α) (f : α → Except ε β) :
    ((Except.ok a : Except ε α) >>= f) = f a := rfl

theorem error_bind {ε α β : Type} (e : ε) (f : α → Except ε β) :
    ((Except.error e : Except ε α) >>= f) = .error e := rfl

/-- C1: the claim says a well-formed clone command decodes its seven
fields sequentially and yields a clone operation. The code instead asks
the transaction-id read for the attribute name
"BTRFS_SEND_A_CLONE_TRANSID", which is not in the attribute catalog
(the catalog has "BTRFS_SEND_A_CLONE_CTRANSID"), so every clone command
aborts with an unexpected-attribute error before reaching `clone_path`
(which would in addition be read from the body start, not from the
position after the previous field). Decoding the concrete stream
`csClone`, whose clone body carries the seven expected attributes
well-formed and in order, fails. -/
theorem c1_clone_decode_fails :
    parse csClone false =
      .error (.unexpectedAttribute 21 "BTRFS_SEND_A_CLONE_TRANSID") ∧
    "BTRFS_SEND_A_CLONE_TRANSID" ∉ sendAttrNames := by
  constructor
  · rfl
  · decide

/-- C2: when the next command header carries a code outside the
supported catalog (codes 0–22 are the ones the dispatch chain handles),
the dispatch loop stops at once with the unknown-command error carrying
that code; no operations are produced past it. -/
theorem c2_unknown_command_fatal (s : List Nat) (v : Nat) (b : Bool)
    (fuel offset r c : Nat) (hlen : offset + 10 ≤ s.length)
    (hc : leVal s (offset + 4) 2 = c) (hcat : 23 ≤ c) :
    parseFrom s v b (fuel + 1) offset r = .error (.unknownCommand c) := by
  subst hc
  simp only [parseFrom]
  rw [if_pos hlen, if_neg (by omega),
    decodeBody_unknown s v b (offset + 10) r _ hcat]

/-- C2 witness: a concrete stream whose next command code is 23. -/
theorem c2_witness :
    parseFrom csCmd23 1 true 1 17 0 = .error (.unknownCommand 23) :=
  c2_unknown_command_fatal csCmd23 1 true 0 17 0 23 (by decide) (by decide)
    (by decide)

/-- C3 counterexample: in the decoded log of `csUnspecMkdir` the
`unspec` and `end` operations carry no `cmd_ref` at all, and the
`cmd_ref` values that are carried start at 1, not 0 — refuting the
claim that every operation carries a `cmd_ref` and that the values
start at 0. -/
theorem c3_counterexample :
    parse csUnspecMkdir false =
      .ok [Op.unspec, Op.mkdir [97] 1, Op.endCmd 52 52] ∧
    Op.cmdRef? Op.unspec = none ∧
    Op.cmdRef? (Op.endCmd 52 52) = none ∧
    Op.cmdRef? (Op.mkdir [97] 1) = some 1 :=
  ⟨by rfl, rfl, rfl, rfl⟩

/-- C3 (amended): in every successfully decoded log, each operation
other than `end` and `unspec` carries a `cmd_ref` equal to its
zero-based position in the log (hence the carried values are strictly
increasing in emission order and start at 0 exactly when the first
operation carries one), while `end` and `unspec` carry none. -/
theorem c3_cmd_ref_discipline (s : List Nat) (b : Bool) (log : List Op)
    (h : parse s b = .ok log) : refSeq 0 log := by
  unfold parse at h
  cases ho : openStream s with
  | error e => rw [ho] at h; exact absurd h (by simp)
  | ok v => rw [ho] at h; exact parseFrom_refSeq s v b _ 17 0 log h

/-- C3 witness: the discipline instantiated on the concretely decoded
log of `csUnspecMkdir`. -/
theorem c3_witness :
    refSeq 0 [Op.unspec, Op.mkdir [97] 1, Op.endCmd 52 52] :=
  c3_cmd_ref_discipline csUnspecMkdir false _ (by rfl)

/-- C4: opening fails with `invalidStream` exactly when the input is
shorter than 17 bytes or its first 12 bytes differ from the magic, and
then no decode proceeds; otherwise opening yields the little-endian
version from bytes 13–16 and parsing starts at byte 17 with the
`cmd_ref` counter at 0. -/
theorem c4_open_stream (s : List Nat) (b : Bool) :
    (openStream s = .error .invalidStream ↔
      (s.length < 17 ∨ s.take 12 ≠ streamMagic)) ∧
    (openStream s = .error .invalidStream → parse s b = .error .invalidStream) ∧
    (17 ≤ s.length → s.take 12 = streamMagic →
      openStream s = .ok (leVal s 13 4) ∧
      parse s b = parseFrom s (leVal s 13 4) b (s.length + 1) 17 0) := by
  refine ⟨?_, ?_, ?_⟩
  · unfold openStream
    by_cases h1 : s.length < 17
    · simp [h1]
    · by_cases h2 : s.take 12 = streamMagic
      · simp [h1, h2]
      · simp [h1, h2]
  · intro h
    unfold parse
    rw [h]
  · intro h1 h2
    have ho : openStream s = .ok (leVal s 13 4) := by
      unfold openStream
      rw [if_neg (by omega), if_neg (by simpa using h2)]
    refine ⟨ho, ?_⟩
    unfold parse
    rw [ho]

/-- C4 witness: a valid header opens with version 1 and decoding starts
at byte 17, while the empty input fails with `invalidStream`. -/
theorem c4_witness :
    openStream csEndJunk = .ok 1 ∧
    parse csEndJunk false =
      parseFrom csEndJunk 1 false (csEndJunk.length + 1) 17 0 ∧
    openStream [] = .error .invalidStream := by
  refine ⟨?_, ?_, ?_⟩
  · exact ((c4_open_stream csEndJunk false).2.2 (by decide) (by rfl)).1
  · exact ((c4_open_stream csEndJunk false).2.2 (by decide) (by rfl)).2
  · exact (c4_open_stream [] false).1.mpr (by decide)

/-- C5: the path index of every successful decode is built by one pass
that skips `end`/`unspec` and derives `path_to` for `rename` and `path`
otherwise (`affectedPath?`); consequently each key owns at least one
recorded `cmd_ref` whose operation's derived path equals the key, and
the key iteration order is the first-occurrence order of derived paths
in the operation log. -/
theorem c5_path_index (s : List Nat) (b : Bool) (log : List Op)
    (paths : List (List Nat × List Nat))
    (h : decode s b = .ok (log, paths)) :
    paths.map Prod.fst = firstSeen (log.filterMap affectedPath?) ∧
    ∀ p rs, (p, rs) ∈ paths →
      ∃ op ∈ log, affectedPath? op = some p ∧
        ∃ r, Op.cmdRef? op = some r ∧ r ∈ rs := by
  have hp : paths = buildPaths log := by
    unfold decode at h
    cases hps : parse s b with
    | error e => rw [hps] at h; exact absurd h (by simp)
    | ok cmds =>
      rw [hps] at h
      simp only [Except.ok.injEq, Prod.mk.injEq] at h
      obtain ⟨h1, h2⟩ := h
      subst h1
      exact h2.symm
  subst hp
  constructor
  · exact buildPaths_map_fst log
  · intro p rs hmem
    obtain ⟨hne, hsound⟩ := buildPaths_sound log (p, rs) hmem
    obtain ⟨r, hr⟩ := List.exists_mem_of_ne_nil rs hne
    obtain ⟨op, hop, hpath, href⟩ := hsound r hr
    exact ⟨op, hop, hpath, r, href, hr⟩

/-- C5 witness: the index of `csTwoPaths` keeps keys in first-occurrence
order ("b" before "a", against lexical order), and the key "b" owns a
`cmd_ref` whose operation's derived path is "b". -/
theorem c5_witness :
    ([([98], [0, 2]), ([97], [1])] : List (List Nat × List Nat)).map Prod.fst =
      firstSeen (([Op.mkdir [98] 0, Op.mkdir [97] 1, Op.rmdir [98] 2,
        Op.endCmd 72 72]).filterMap affectedPath?) ∧
    ∃ op ∈ [Op.mkdir [98] 0, Op.mkdir [97] 1, Op.rmdir [98] 2, Op.endCmd 72 72],
      affectedPath? op = some [98] ∧ ∃ r, Op.cmdRef? op = some r ∧ r ∈ [0, 2] := by
  have h := c5_path_index csTwoPaths false
    [Op.mkdir [98] 0, Op.mkdir [97] 1, Op.rmdir [98] 2, Op.endCmd 72 72]
    [([98], [0, 2]), ([97], [1])] (by rfl)
  exact ⟨h.1, h.2 [98] [0, 2] (by decide)⟩

/-- C6: every successful decode produces a log whose final entry is its
only `end` operation; that operation's `stream_length` is the byte
length of the input buffer, and its `headers_length` is the read
position just past the 10-byte header of the `end` command (whose code
field, bytes `headers_length - 6` and following, holds 21) — decoding
having stopped there even when bytes remain. -/
theorem c6_end_termination (s : List Nat) (b : Bool) (log : List Op)
    (h : parse s b = .ok log) :
    ∃ pre hl, log = pre ++ [Op.endCmd hl s.length] ∧
      (∀ op ∈ pre, Op.isEnd op = false) ∧
      10 ≤ hl ∧ hl ≤ s.length ∧ leVal s (hl - 6) 2 = 21 := by
  unfold parse at h
  cases ho : openStream s with
  | error e => rw [ho] at h; exact absurd h (by simp)
  | ok v => rw [ho] at h; exact parseFrom_end_shape s v b _ 17 0 log h

/-- C6 witness: `csEndJunk` ends with three bytes after its `end`
command, decodes to a single `end` operation carrying the full buffer
length 30, and terminates there. -/
theorem c6_witness :
    ∃ pre hl, [Op.endCmd 27 30] = pre ++ [Op.endCmd hl csEndJunk.length] ∧
      (∀ op ∈ pre, Op.isEnd op = false) ∧
      10 ≤ hl ∧ hl ≤ csEndJunk.length ∧ leVal csEndJunk (hl - 6) 2 = 21 :=
  c6_end_termination csEndJunk false [Op.endCmd 27 30] (by rfl)

/-- C7: a `utimes` command decodes `path`, `atime`, `mtime`, `ctime` in
a chain of positions; with stream version 1 it then yields the
operation with `otime = 0.0` without attempting a fifth read and
without error, while with version at least 2 it additionally decodes
`otime` at the position after `ctime` (errors of that read propagate,
successes land in the operation). -/
theorem c7_utimes_version_gating (s : List Nat) (b : Bool)
    (off r o1 o2 o3 o4 : Nat) (path : List Nat) (ta tm tc : Timespec)
    (hp : tlv_get_string s "BTRFS_SEND_A_PATH" off = .ok (o1, path))
    (ha : tlv_get_timespec s "BTRFS_SEND_A_ATIME" o1 = .ok (o2, ta))
    (hm : tlv_get_timespec s "BTRFS_SEND_A_MTIME" o2 = .ok (o3, tm))
    (hc : tlv_get_timespec s "BTRFS_SEND_A_CTIME" o3 = .ok (o4, tc)) :
    decodeBody s 1 b 20 off r = .ok [Op.utimes path ta tm tc ⟨0, 0⟩ r] ∧
    ∀ v, 2 ≤ v → decodeBody s v b 20 off r =
      (tlv_get_timespec s "BTRFS_SEND_A_OTIME" o4).map
        (fun x => [Op.utimes path ta tm tc x.2 r]) := by
  have key : ∀ v : Nat, decodeBody s v b 20 off r =
      (if 2 ≤ v then
        (do
          let (_, otime) ← tlv_get_timespec s "BTRFS_SEND_A_OTIME" o4
          pure [Op.utimes path ta tm tc otime r])
       else pure [Op.utimes path ta tm tc ⟨0, 0⟩ r]) := by
    intro v
    show (do
        let (o2, path) ← tlv_get_string s "BTRFS_SEND_A_PATH" off
        let (o2, atime) ← tlv_get_timespec s "BTRFS_SEND_A_ATIME" o2
        let (o2, mtime) ← tlv_get_timespec s "BTRFS_SEND_A_MTIME" o2
        let (o2, ctime) ← tlv_get_timespec s "BTRFS_SEND_A_CTIME" o2
        if 2 ≤ v then do
          let (_, otime) ← tlv_get_timespec s "BTRFS_SEND_A_OTIME" o2
          pure [Op.utimes path atime mtime ctime otime r]
        else
          pure [Op.utimes path atime mtime ctime ⟨0, 0⟩ r] :
        Except DecodeError (List Op)) = _
    simp only [hp, ha, hm, hc, ok_bind]
  constructor
  · rw [key 1, if_neg (by omega)]
    rfl
  · intro v hv
    rw [key v, if_pos hv]
    cases hot : tlv_get_timespec s "BTRFS_SEND_A_OTIME" o4 with
    | error e => simp [hot, error_bind, Except.map]
    | ok x => simp [hot, ok_bind, Except.map]

/-- C7 witness: the version-1 stream `csUtimesV1`, whose `utimes` body
carries no `otime` attribute, decodes with `otime = 0.0` and no error. -/
theorem c7_witness :
    decodeBody csUtimesV1 1 false 20 27 0 =
      .ok [Op.utimes [97] ⟨1, 2⟩ ⟨3, 4⟩ ⟨5, 6⟩ ⟨0, 0⟩ 0] :=
  (c7_utimes_version_gating csUtimesV1 false 27 0 32 48 64 80 [97]
    ⟨1, 2⟩ ⟨3, 4⟩ ⟨5, 6⟩ (by rfl) (by rfl) (by rfl) (by rfl)).1

/-- C8: after a non-`end` command whose body decodes successfully, the
loop resumes exactly at the old position plus the 10-byte header plus
the body length declared in the header (`leVal s offset 4`), whatever
positions the TLV reads of the body reached. -/
theorem c8_advance_declared_length (s : List Nat) (v : Nat) (b : Bool)
    (fuel offset r : Nat) (ops : List Op)
    (hlen : offset + 10 ≤ s.length)
    (hne : leVal s (offset + 4) 2 ≠ 21)
    (hops : decodeBody s v b (leVal s (offset + 4) 2) (offset + 10) r = .ok ops) :
    parseFrom s v b (fuel + 1) offset r =
      (parseFrom s v b fuel (offset + 10 + leVal s offset 4)
        (r + ops.length)).map (fun rest => ops ++ rest) := by
  simp only [parseFrom]
  rw [if_pos hlen, if_neg hne, hops]
  show (match parseFrom s v b fuel (offset + 10 + leVal s offset 4)
      (r + ops.length) with
    | Except.error e => Except.error e
    | Except.ok rest => Except.ok (ops ++ rest)) = _
  cases parseFrom s v b fuel (offset + 10 + leVal s offset 4)
      (r + ops.length) with
  | error e => rfl
  | ok rest => rfl

/-- C8 witness: in `csPadded` the `mkdir` command declares a body length
of 8 though its TLV decoding consumes 5 bytes; the loop resumes at
17 + 10 + 8 = 35, where the `end` command sits. -/
theorem c8_witness :
    parseFrom csPadded 1 false 2 17 0 =
      (parseFrom csPadded 1 false 1 35 1).map
        (fun rest => [Op.mkdir [97] 0] ++ rest) :=
  c8_advance_declared_length csPadded 1 false 1 17 0 [Op.mkdir [97] 0]
    (by decide) (by decide) (by rfl)

/-- C9 counterexample: in `csOverrun` the `size` attribute at byte 33
declares a payload of 100 bytes while only 8 bytes remain, yet the
whole stream decodes to a complete operation log with no error —
refuting the claim that any overrunning declared attribute length makes
decoding fail with `bufferOverrun`. -/
theorem c9_counterexample :
    leVal csOverrun 33 2 = 4 ∧
    leVal csOverrun 35 2 = 100 ∧
    csOverrun.length = 45 ∧
    csOverrun.length - (33 + 4) < 100 ∧
    parse csOverrun false =
      .ok [Op.truncate [21, 0] 578437695752307201 0, Op.endCmd 37 45] :=
  ⟨by rfl, by rfl, by rfl, by decide, by rfl⟩

/-- C9 (amended): a raw-bytes or string attribute whose declared length
exceeds the remaining bytes fails with `bufferOverrun`; the fixed-width
reads (u64, uuid, timestamp) fail with `bufferOverrun` whenever the
available slice differs from their fixed width — but an overrunning
declared length with exactly the fixed width remaining succeeds, so a
stream may decode completely despite an overrun (never yielding a
partial log: an error carries no operations at all). -/
theorem c9_tlv_overrun (s : List Nat) (expected : String) (index lAttr : Nat)
    (hh : tlvHeader s expected index = .ok lAttr) :
    (s.length - (index + 4) < lAttr →
      tlv_get s expected index = .error .bufferOverrun ∧
      tlv_get_string s expected index = .error .bufferOverrun) ∧
    (min lAttr (s.length - (index + 4)) ≠ 8 →
      tlv_get_u64 s expected index = .error .bufferOverrun) ∧
    (min lAttr (s.length - (index + 4)) ≠ 16 →
      tlv_get_uuid s expected index = .error .bufferOverrun) ∧
    (min lAttr (s.length - (index + 4)) ≠ 12 →
      tlv_get_timespec s expected index = .error .bufferOverrun) := by
  refine ⟨fun hover => ⟨?_, ?_⟩, fun hne => ?_, fun hne => ?_, fun hne => ?_⟩
  · unfold tlv_get
    simp only [hh, ok_bind]
    rw [if_neg (by omega)]
  · unfold tlv_get_string
    simp only [hh, ok_bind]
    rw [if_neg (by omega)]
  · unfold tlv_get_u64
    simp only [hh, ok_bind]
    rw [if_neg hne]
  · unfold tlv_get_uuid
    simp only [hh, ok_bind]
    rw [if_neg hne]
  · unfold tlv_get_timespec
    simp only [hh, ok_bind]
    rw [if_neg hne]

/-- C9 witness: the fragment `csShortTlv` declares 5 payload bytes with
one remaining; every getter fails with `bufferOverrun` on it. -/
theorem c9_witness :
    (tlv_get csShortTlv "BTRFS_SEND_A_PATH" 0 = .error .bufferOverrun ∧
     tlv_get_string csShortTlv "BTRFS_SEND_A_PATH" 0 = .error .bufferOverrun) ∧
    tlv_get_u64 csShortTlv "BTRFS_SEND_A_PATH" 0 = .error .bufferOverrun ∧
    tlv_get_uuid csShortTlv "BTRFS_SEND_A_PATH" 0 = .error .bufferOverrun ∧
    tlv_get_timespec csShortTlv "BTRFS_SEND_A_PATH" 0 = .error .bufferOverrun := by
  have h := c9_tlv_overrun csShortTlv "BTRFS_SEND_A_PATH" 0 5 (by rfl)
  exact ⟨h.1 (by decide), h.2.1 (by decide), h.2.2.1 (by decide),
    h.2.2.2 (by decide)⟩

/-- C10: a `mkfifo` or `mksock` command decodes `path`, `ino`, `rdev`,
`mode` in a chain of positions, but the yielded operation holds only
`path`, `ino`, `rdev` and `cmd_ref` — the `Op.mkfifo`/`Op.mksock`
variants have no mode field, and the result does not depend on the
decoded mode value. -/
theorem c10_mkfifo_mksock_mode_discarded (s : List Nat) (v : Nat) (b : Bool)
    (off r o1 o2 o3 o4 : Nat) (path : List Nat) (ino rdev mode : Nat)
    (hp : tlv_get_string s "BTRFS_SEND_A_PATH" off = .ok (o1, path))
    (hi : tlv_get_u64 s "BTRFS_SEND_A_INO" o1 = .ok (o2, ino))
    (hr : tlv_get_u64 s "BTRFS_SEND_A_RDEV" o2 = .ok (o3, rdev))
    (hm : tlv_get_u64 s "BTRFS_SEND_A_MODE" o3 = .ok (o4, mode)) :
    decodeBody s v b 6 off r = .ok [Op.mkfifo path ino rdev r] ∧
    decodeBody s v b 7 off r = .ok [Op.mksock path ino rdev r] := by
  constructor
  · show (do
        let (o2, path) ← tlv_get_string s "BTRFS_SEND_A_PATH" off
        let (o2, ino) ← tlv_get_u64 s "BTRFS_SEND_A_INO" o2
        let (o2, rdev) ← tlv_get_u64 s "BTRFS_SEND_A_RDEV" o2
        let (_, _mode) ← tlv_get_u64 s "BTRFS_SEND_A_MODE" o2
        pure [Op.mkfifo path ino rdev r] : Except DecodeError (List Op)) = _
    simp only [hp, hi, hr, hm, ok_bind]
    rfl
  · show (do
        let (o2, path) ← tlv_get_string s "BTRFS_SEND_A_PATH" off
        let (o2, ino) ← tlv_get_u64 s "BTRFS_SEND_A_INO" o2
        let (o2, rdev) ← tlv_get_u64 s "BTRFS_SEND_A_RDEV" o2
        let (_, _mode) ← tlv_get_u64 s "BTRFS_SEND_A_MODE" o2
        pure [Op.mksock path ino rdev r] : Except DecodeError (List Op)) = _
    simp only [hp, hi, hr, hm, ok_bind]
    rfl

/-- C10 witness: the concrete `mkfifo` command of `csMkfifo` (mode value
3 on the wire) yields an operation carrying only path, ino, rdev and
cmd_ref. -/
theorem c10_witness :
    decodeBody csMkfifo 1 false 6 27 0 = .ok [Op.mkfifo [97] 1 2 0] :=
  (c10_mkfifo_mksock_mode_discarded csMkfifo 1 false 27 0 32 44 56 68 [97]
    1 2 3 (by rfl) (by rfl) (by rfl) (by rfl)).1
